import Mathlib

/-!
Verification of the boston-gov conversation core against its specification.

This file gives a shallow embedding, in Lean 4, of the citation-enforcing
conversation core of the repository:

* `src/backend/src/schemas/facts.py`  — `Fact`, `FactsRegistry` and their validators;
* `src/backend/src/services/facts_service.py` — `FactsService` (in-memory cache of
  loaded registries and the query methods over it);
* `src/backend/src/schemas/agent.py` — `Citation`, `ConversationResponse`;
* `src/backend/src/agents/conversation.py` — the tool dispatcher
  (`_execute_tool_call`, `_execute_graph_query`, `_execute_facts_query`),
  the citation extractor (`_extract_citations_from_response`) and the
  orchestration loop (`ask`).

Python dictionaries with a fixed set of possibly-absent keys are embedded as
structures of `Option` fields (`none` = key absent); Python `None` inside a
present key is a further inner `Option`.  Python exceptions are embedded with
`Except String` (the `String` standing for the raised exception's message);
code that cannot raise is a total function.  The external reasoning engine
(`client.messages.create`) is embedded as an arbitrary function from the
engine-call index to the content blocks of the engine's response, which is
fully general because the loop is deterministic between engine calls.
-/

namespace BostonGov

/-- `ConfidenceLevel` enum from `src/backend/src/schemas/graph.py`. -/
inductive ConfidenceLevel where
  | high
  | medium
  | low
deriving DecidableEq, Repr

/-- `Fact` model from `src/backend/src/schemas/facts.py`.  `source_url` is kept
as a plain string (its URL-wellformedness is checked by pydantic's `HttpUrl`
type, which no claim inspects); `last_verified` is likewise kept as the
date's string form. -/
structure Fact where
  id : String
  text : String
  source_url : String
  source_section : Option String := none
  last_verified : String
  confidence : ConfidenceLevel
  note : Option String := none
deriving DecidableEq, Repr

/-- Python's `str.strip()`: drop leading and trailing whitespace characters,
embedded over the string's character list (Lean's own `String.trim` is
extensionally the same but is defined by well-founded recursion on byte
positions, which blocks kernel evaluation).  The whitespace set is Lean's
`Char.isWhitespace` (space, tab, CR, LF); Python's is broader but agrees on
every character the code and claims exercise. -/
def strTrim (s : String) : String :=
  ⟨((s.data.dropWhile Char.isWhitespace).reverse.dropWhile Char.isWhitespace).reverse⟩

/-- The `id` and `text` field validators of `Fact` together with the
`min_length`/`max_length` field constraints: `id` is 1–200 characters and not
whitespace-only, `text` is nonempty and not whitespace-only.  (The validators
also strip the value; registries embedded here are taken in their
post-validation, already-stripped form.) -/
def Fact.fieldsValid (f : Fact) : Bool :=
  1 ≤ f.id.length && f.id.length ≤ 200 && strTrim f.id ≠ "" &&
  1 ≤ f.text.length && strTrim f.text ≠ ""

/-- `FactsRegistry` model from `src/backend/src/schemas/facts.py`. -/
structure FactsRegistry where
  version : String
  last_updated : String
  scope : String
  facts : List Fact
deriving DecidableEq, Repr

/-- The `validate_unique_fact_ids` field validator of `FactsRegistry`
(`src/backend/src/schemas/facts.py` lines 206–227): collects every id that
occurs more than once among the registry's own facts and rejects the registry
when that list is nonempty.  Note that it only ever looks at the facts of the
single registry being validated. -/
def validate_unique_fact_ids (facts : List Fact) : Bool :=
  ((facts.map Fact.id).filter (fun i => 1 < (facts.map Fact.id).count i)).isEmpty

/-- All `FactsRegistry` validation that can fail: the `version`/`scope`
validators and length bounds, the `facts` `min_length=1` constraint, each
fact's own field validators, and `validate_unique_fact_ids`. -/
def FactsRegistry.validateB (r : FactsRegistry) : Bool :=
  1 ≤ r.version.length && r.version.length ≤ 20 && strTrim r.version ≠ "" &&
  1 ≤ r.scope.length && r.scope.length ≤ 200 && strTrim r.scope ≠ "" &&
  1 ≤ r.facts.length && r.facts.all Fact.fieldsValid &&
  validate_unique_fact_ids r.facts

/-- `FactsService` state (`src/backend/src/services/facts_service.py`): the
in-memory `_cache` mapping registry name to loaded registry.  Python's `dict`
preserves insertion order, so the cache is embedded as an association list in
insertion order.  (The `facts_dir` path and the thread lock have no bearing on
any claim and are not modeled; every method below is executed under the lock
and is sequential.) -/
structure FactsService where
  cache : List (String × FactsRegistry)
deriving DecidableEq, Repr

/-- `FactsService.load_registry`, with the file system and YAML parsing
abstracted away: `data` is the parsed content of `<registry_name>.yaml`.
If the name is already cached the cached registry is returned unchanged;
otherwise the registry is validated (raising `RegistryValidationError`,
embedded as `.error`) and appended to the cache. -/
def FactsService.load_registry (s : FactsService) (registry_name : String)
    (data : FactsRegistry) : Except String (FactsService × FactsRegistry) :=
  match s.cache.find? (fun p => p.1 == registry_name) with
  | some p => .ok (s, p.2)
  | none =>
    if FactsRegistry.validateB data then
      .ok (⟨s.cache ++ [(registry_name, data)]⟩, data)
    else
      .error "Registry validation failed"

/-- `FactsService.get_fact_by_id` (lines 190–205): iterate the cached
registries in insertion order and, within each, the facts in order; return
the first fact whose `id` equals `fact_id`, or `none`. -/
def FactsService.get_fact_by_id (s : FactsService) (fact_id : String) : Option Fact :=
  s.cache.findSome? (fun p => p.2.facts.find? (fun f => f.id == fact_id))

/-- Python's `str.startswith`, i.e. `fact.id.startswith(prefix)`: a
code-point prefix test, embedded over the strings' character lists (which is
what `str.startswith` compares; Lean's own `String.startsWith` is
extensionally the same but is defined by well-founded recursion on byte
positions, which blocks kernel evaluation). -/
def strStartsWith (s pre : String) : Bool :=
  pre.data.isPrefixOf s.data

/-- `FactsService.get_facts_by_prefix` (lines 207–234): iterate the cached
registries in insertion order, appending every fact whose `id` starts with
the given prefix. -/
def FactsService.get_facts_by_prefix (s : FactsService) (pfx : String) : List Fact :=
  s.cache.foldl (fun acc p => acc ++ p.2.facts.filter (fun f => strStartsWith f.id pfx)) []

/-- `FactsService.get_all_facts` (lines 236–247): all facts of all cached
registries, in insertion order. -/
def FactsService.get_all_facts (s : FactsService) : List Fact :=
  s.cache.foldl (fun acc p => acc ++ p.2.facts) []

/-- The dictionary produced by `fact.model_dump()` as seen by the citation
extractor, which reads only the keys `id`, `source_url`, `text` and
`source_section`.  Each field is `Option`-valued because the extractor
guards against upstream dictionaries missing keys (`none` = key absent or,
for `source_section`, Python `None`, which `.get` does not distinguish). -/
structure FactData where
  id : Option String := none
  source_url : Option String := none
  text : Option String := none
  source_section : Option String := none
deriving DecidableEq, Repr

/-- `model_dump()` of a validated `Fact`, restricted to the keys the
extractor reads: every key is present. -/
def Fact.model_dump (f : Fact) : FactData :=
  { id := some f.id, source_url := some f.source_url, text := some f.text,
    source_section := f.source_section }

/-- `Citation` model from `src/backend/src/schemas/agent.py` (`fact_id` is
optional in the schema; the extractor always sets it). -/
structure Citation where
  fact_id : Option String := none
  url : String
  text : String
  source_section : Option String := none
deriving DecidableEq, Repr

/-- A tool-call result dictionary (`dict[str, Any]`), as produced by
`_execute_tool_call` and consumed by the citation extractor.  Each field is a
possibly-absent key (`none` = key absent); `fact` and `process`/`office` hold
a further `Option` because the dispatcher writes Python `None` there when
nothing was found.  Graph entity payloads (`model_dump()` of the graph
schemas) are opaque to every claim and stand in as strings. -/
structure ToolResult where
  error : Option String := none
  tool : Option String := none
  message : Option String := none
  fact : Option (Option FactData) := none
  facts : Option (List FactData) := none
  process : Option (Option String) := none
  steps : Option (List String) := none
  requirements : Option (List String) := none
  office : Option (Option String) := none
  documents : Option (List String) := none
deriving DecidableEq, Repr

/-- One step of `_extract_citations_from_response`'s per-fact body
(`src/backend/src/agents/conversation.py` lines 369–383 and 387–401; the two
copies are identical): read `id` from the fact dictionary; if it is absent or
falsy, or `source_url` or `text` is absent, skip the entry; otherwise, if the
id has not been seen, append the `Citation` and mark the id seen.  The state
is `(citations, seen_fact_ids)`; `seen_fact_ids` is kept as a list with the
same membership as the Python set. -/
def citeStep (st : List Citation × List String) (fd : FactData) :
    List Citation × List String :=
  match fd.id, fd.source_url, fd.text with
  | some fid, some url, some txt =>
    if fid = "" then st
    else if fid ∈ st.2 then st
    else (st.1 ++ [{ fact_id := some fid, url := url, text := txt,
                     source_section := fd.source_section }],
          st.2 ++ [fid])
  | _, _, _ => st

/-- The fact dictionaries a single tool result contributes to extraction
(lines 365–386): the `fact` key is consulted first and, when present and
truthy, contributes exactly that one entry; otherwise (`elif`) a present
`facts` key contributes its entries in order.  (A present-but-empty `facts`
list is falsy in Python and skipped; folding over the empty list is
identical.) -/
def resultFacts (r : ToolResult) : List FactData :=
  match r.fact with
  | some (some fd) => [fd]
  | _ =>
    match r.facts with
    | some fs => fs
    | none => []

/-- `_extract_citations_from_response` (lines 346–403): fold the per-fact body
over every fact dictionary of every tool result, in call order, starting from
no citations and no seen ids, and return the citation list.  (The
`response_text` parameter of the Python method is never read.) -/
def extractCitations (tool_results : List ToolResult) : List Citation :=
  (tool_results.foldl (fun st r => (resultFacts r).foldl citeStep st) ([], [])).1

/-- The input dictionary of a tool invocation (`tool_input: dict[str, Any]`):
the keys the dispatcher ever reads, each possibly absent.  `pfx` embeds the
Python key named "prefix", which is a reserved word in Lean. -/
structure ToolInput where
  query_type : Option String := none
  process_id : Option String := none
  step_id : Option String := none
  requirement_id : Option String := none
  fact_id : Option String := none
  pfx : Option String := none
deriving DecidableEq, Repr

/-- Python truthiness of `tool_input.get(key)` for a string-valued key:
`none` when the key is absent or its value is the empty string (both falsy),
the value otherwise. -/
def truthy : Option String → Option String
  | none => none
  | some s => if s = "" then none else some s

/-- The backing graph store as consumed by `_execute_graph_query`: the six
`GraphService` lookups of `src/backend/src/services/graph_service.py`.
Entity payloads (`model_dump()` of the graph schemas) are opaque to every
claim and stand in as strings; `.error` is a raised backend exception. -/
structure GraphStore where
  get_process_by_id : String → Except String (Option String)
  get_process_steps : String → Except String (List String)
  get_process_requirements : String → Except String (List String)
  get_step_office : String → Except String (Option String)
  get_step_document_types : String → Except String (List String)
  get_requirement_document_types : String → Except String (List String)

/-- The backing fact store as consumed by `_execute_facts_query`: the three
`FactsService` query methods, each allowed to raise (`.error`).  Field names
abbreviate `get_fact_by_id`, `get_facts_by_prefix` and `get_all_facts`. -/
structure FactsStore where
  byId : String → Except String (Option Fact)
  byPfx : String → Except String (List Fact)
  allFacts : Unit → Except String (List Fact)

/-- The concrete `FactsService` viewed as a backing fact store (its query
methods are pure and never raise). -/
def FactsService.toStore (s : FactsService) : FactsStore where
  byId := fun fid => .ok ( FactsService.get_fact_by_id s fid)
  byPfx := fun pfx => .ok ( FactsService.get_facts_by_prefix s pfx)
  allFacts := fun _ => .ok ( FactsService.get_all_facts s)

/-- `_execute_graph_query` (`src/backend/src/agents/conversation.py` lines
252–309): check `query_type`, then the required companion id, then call the
graph store, propagating any exception it raises (`.error`). -/
def execute_graph_query (g : GraphStore) (tool_input : ToolInput) :
    Except String ToolResult :=
  match truthy tool_input.query_type with
  | none => .ok { error := some "Missing required parameter: query_type" }
  | some query_type =>
    if query_type = "get_process" then
      match truthy tool_input.process_id with
      | none => .ok { error := some "Missing required parameter: process_id" }
      | some pid => do
        let p ← g.get_process_by_id pid
        .ok { process := some p }
    else if query_type = "get_process_steps" then
      match truthy tool_input.process_id with
      | none => .ok { error := some "Missing required parameter: process_id" }
      | some pid => do
        let st ← g.get_process_steps pid
        .ok { steps := some st }
    else if query_type = "get_process_requirements" then
      match truthy tool_input.process_id with
      | none => .ok { error := some "Missing required parameter: process_id" }
      | some pid => do
        let reqs ← g.get_process_requirements pid
        .ok { requirements := some reqs }
    else if query_type = "get_step_office" then
      match truthy tool_input.step_id with
      | none => .ok { error := some "Missing required parameter: step_id" }
      | some sid => do
        let o ← g.get_step_office sid
        .ok { office := some o }
    else if query_type = "get_step_documents" then
      match truthy tool_input.step_id with
      | none => .ok { error := some "Missing required parameter: step_id" }
      | some sid => do
        let ds ← g.get_step_document_types sid
        .ok { documents := some ds }
    else if query_type = "get_requirement_documents" then
      match truthy tool_input.requirement_id with
      | none => .ok { error := some "Missing required parameter: requirement_id" }
      | some rid => do
        let ds ← g.get_requirement_document_types rid
        .ok { documents := some ds }
    else
      .ok { error := some ("Unknown query_type: " ++ query_type) }

/-- `_execute_facts_query` (lines 311–344): check `query_type`, then the
required companion field, then call the fact store, propagating any
exception it raises (`.error`). -/
def execute_facts_query (f : FactsStore) (tool_input : ToolInput) :
    Except String ToolResult :=
  match truthy tool_input.query_type with
  | none => .ok { error := some "Missing required parameter: query_type" }
  | some query_type =>
    if query_type = "by_id" then
      match truthy tool_input.fact_id with
      | none => .ok { error := some "Missing required parameter: fact_id" }
      | some fid => do
        let fact ← f.byId fid
        .ok { fact := some (fact.map Fact.model_dump) }
    else if query_type = "by_prefix" then
      match truthy tool_input.pfx with
      | none => .ok { error := some "Missing required parameter: prefix" }
      | some pfx => do
        let facts ← f.byPfx pfx
        .ok { facts := some (facts.map Fact.model_dump) }
    else if query_type = "all" then do
      let facts ← f.allFacts ()
      .ok { facts := some (facts.map Fact.model_dump) }
    else
      .ok { error := some ("Unknown query_type: " ++ query_type) }

/-- The fixed user-safe message of the sanitized error payload
(`src/backend/src/agents/conversation.py` lines 242–245). -/
def sanitizedToolErrorMessage : String :=
  "Tool execution failed due to an internal error. " ++
  "Please try rephrasing your query or contact support if the issue persists."

/-- The sanitized error payload returned when tool execution raises
(lines 246–250). -/
def internalErrorPayload (tool_name : String) : ToolResult :=
  { error := some "internal_error", tool := some tool_name,
    message := some sanitizedToolErrorMessage }

/-- `_execute_tool_call` (lines 216–250): route to the graph or facts query,
raising `ConversationAgentError` for an unknown tool name; any exception
escaping the routed call (including that one) is caught and replaced by the
sanitized `internal_error` payload, so dispatch always returns a plain
structured result. -/
def execute_tool_call (g : GraphStore) (f : FactsStore) (tool_name : String)
    (tool_input : ToolInput) : ToolResult :=
  let attempt : Except String ToolResult :=
    if tool_name = "query_graph" then execute_graph_query g tool_input
    else if tool_name = "query_facts" then execute_facts_query f tool_input
    else .error ("Unknown tool: " ++ tool_name)
  match attempt with
  | .ok r => r
  | .error _ => internalErrorPayload tool_name

/-- A content block of an engine response: the `TextBlock` and `ToolUseBlock`
cases of `response.content` that `ask` distinguishes. -/
inductive ContentBlock where
  | textBlock (text : String)
  | toolUseBlock (id : String) (name : String) (input : ToolInput)
deriving DecidableEq, Repr

/-- The tool-use blocks of a response, as the dispatch loop consumes them:
`(tool_use.id, tool_use.name, tool_use.input)` triples in order. -/
def toolUses (content : List ContentBlock) : List (String × String × ToolInput) :=
  content.filterMap (fun b =>
    match b with
    | .toolUseBlock i n inp => some (i, n, inp)
    | _ => none)

/-- The text carried by the text blocks of a response, in order. -/
def textBlocks (content : List ContentBlock) : List String :=
  content.filterMap (fun b =>
    match b with
    | .textBlock t => some t
    | _ => none)

/-- The reasoning engine, abstracted as the sequence of responses it returns:
`engine i` is the content of the engine's response to the `(i+1)`-st
`client.messages.create` call of one `ask` invocation. -/
def Engine : Type := Nat → List ContentBlock

/-- One entry of the `tool_result` content list appended to the history after
dispatching a response's tool uses (line 496–498).  The Python code stores
`str(result)`; the result is kept structured here, as no claim reads it. -/
structure ToolResultContent where
  tool_use_id : String
  result : ToolResult
deriving DecidableEq, Repr

/-- The content of a conversation message: the verbatim question string, an
assistant response's blocks, or a list of tool results. -/
inductive MsgContent where
  | text (s : String)
  | blocks (bs : List ContentBlock)
  | toolResults (rs : List ToolResultContent)
deriving DecidableEq, Repr

/-- A conversation message (`MessageParam`): role plus content. -/
structure Msg where
  role : String
  content : MsgContent
deriving DecidableEq, Repr

/-- `ConversationResponse` model from `src/backend/src/schemas/agent.py`. -/
structure ConversationResponse where
  answer : String
  citations : List Citation := []
  tool_calls_made : List String := []
deriving DecidableEq, Repr

/-- The errors `ask` can raise: `ValueError` from input validation, or
`ConversationAgentError` from orchestration. -/
inductive AskError where
  | validationError (msg : String)
  | agentError (msg : String)
deriving DecidableEq, Repr

instance {ε α : Type} [DecidableEq ε] [DecidableEq α] : DecidableEq (Except ε α) :=
  fun a b =>
    match a, b with
    | .error e, .error e' =>
      if h : e = e' then .isTrue (congrArg _ h)
      else .isFalse (fun he => h (Except.error.inj he))
    | .error _, .ok _ => .isFalse Except.noConfusion
    | .ok _, .error _ => .isFalse Except.noConfusion
    | .ok x, .ok y =>
      if h : x = y then .isTrue (congrArg _ h)
      else .isFalse (fun he => h (Except.ok.inj he))

/-- The observable outcome of one `ask` invocation, instrumented with the
run's internal accumulators so that call-count and provenance properties can
be stated: the result, the number of engine calls made, the accumulated tool
results, and the accumulated `tool_calls_made` list (whose length is the
number of tool dispatches). -/
structure RunTrace where
  result : Except AskError ConversationResponse
  engine_calls : Nat
  tool_results : List ToolResult
  tool_calls_made : List String
deriving DecidableEq, Repr

/-- The tool-calling loop of `ask` (lines 448–507).  `fuel` is the number of
remaining iterations of `for iteration in range(max_iterations)`; `calls` is
the number of engine calls already made (so `engine calls` is the next
response); `messages`, `results` and `tcm` are the accumulated history,
tool results and `tool_calls_made`.  `maxIter` is the original
`max_iterations` value, used only in the failure message.  In the tool
branch the Python loop interleaves, per tool-use block, the appends to
`tool_calls_made`, `tool_results` and `tool_response_content` (lines
482–502); the net effect on each accumulator is the three maps below. -/
def askLoop (g : GraphStore) (f : FactsStore) (engine : Engine) (maxIter : Int) :
    Nat → Nat → List Msg → List ToolResult → List String → RunTrace
  | 0, calls, _messages, results, tcm =>
    ⟨.error (.agentError
        ("Max iterations (" ++ toString maxIter ++ ") reached without final response")),
     calls, results, tcm⟩
  | fuel + 1, calls, messages, results, tcm =>
    let response := engine calls
    let uses := toolUses response
    if uses.isEmpty then
      let texts := textBlocks response
      if texts.isEmpty then
        ⟨.error (.agentError "No text response from agent"), calls + 1, results, tcm⟩
      else
        ⟨.ok { answer := String.join texts, citations := extractCitations results,
               tool_calls_made := tcm },
         calls + 1, results, tcm⟩
    else
      askLoop g f engine maxIter fuel (calls + 1)
        (messages ++ [⟨"assistant", .blocks response⟩,
          ⟨"user", .toolResults
            (uses.map (fun u => ⟨u.1, execute_tool_call g f u.2.1 u.2.2⟩))⟩])
        (results ++ uses.map (fun u => execute_tool_call g f u.2.1 u.2.2))
        (tcm ++ uses.map (fun u => u.2.1))

/-- `ConversationAgent.ask` (lines 405–513), instrumented to return the run
trace.  Validation happens synchronously, in source order, before the loop:
empty-or-whitespace question, then question length, then (after stripping
the question) the `max_iterations` range; each failure raises `ValueError`
with zero engine calls, zero tool results and zero tool dispatches.  On
success the loop starts from a history holding the single user message
seeded with the stripped question. -/
def askRun (g : GraphStore) (f : FactsStore) (engine : Engine) (question : String)
    (max_iterations : Int) : RunTrace :=
  if question = "" ∨ strTrim question = "" then
    ⟨.error (.validationError "Question cannot be empty"), 0, [], []⟩
  else if 10000 < question.length then
    ⟨.error (.validationError "Question exceeds maximum length of 10000 characters"),
     0, [], []⟩
  else
    let question := strTrim question
    if max_iterations < 1 ∨ 20 < max_iterations then
      ⟨.error (.validationError "max_iterations must be an integer between 1 and 20"),
       0, [], []⟩
    else
      askLoop g f engine max_iterations max_iterations.toNat 0
        [⟨"user", .text question⟩] [] []

/-- `ConversationAgent.ask` proper: the result of the instrumented run, with
the source's default `max_iterations = 5`. -/
def ask (g : GraphStore) (f : FactsStore) (engine : Engine) (question : String)
    (max_iterations : Int := 5) : Except AskError ConversationResponse :=
  ( askRun g f engine question max_iterations).result

/-- The citation the extractor builds from a fact dictionary when the
dictionary passes the extractor's field guard (`id` present and truthy,
`source_url` and `text` present), and `none` when the guard skips it. -/
def mkCitation (fd : FactData) : Option Citation :=
  match fd.id, fd.source_url, fd.text with
  | some fid, some url, some txt =>
    if fid = "" then none
    else some { fact_id := some fid, url := url, text := txt,
                source_section := fd.source_section }
  | _, _, _ => none

/-- All fact dictionaries of a list of tool results, in call order. -/
def flatFacts (rs : List ToolResult) : List FactData :=
  (rs.map resultFacts).flatten

/-- All citations the extractor's guard accepts, in call order, before
deduplication. -/
def citationCandidates (rs : List ToolResult) : List Citation :=
  (flatFacts rs).filterMap mkCitation

/-- First occurrences of a list of ids, in order, relative to an
already-seen set: the order-preserving deduplication of the claim. -/
def firstIds : List String → List String → List String
  | [], _ => []
  | i :: is, seen => if i ∈ seen then firstIds is seen else i :: firstIds is (seen ++ [i])

/-! ## Concrete objects used by the witness theorems -/

def witFactA : Fact :=
  { id := "rpp.a.one", text := "Fact A", source_url := "https://ex/a",
    last_verified := "2025-01-01", confidence := .high }

def witFactB : Fact :=
  { id := "rpp.b.two", text := "Fact B", source_url := "https://ex/b",
    source_section := some "sec B", last_verified := "2025-01-01", confidence := .medium }

/-- A fact in a second registry sharing `witFactA`'s id. -/
def witFactDup : Fact :=
  { id := "rpp.a.one", text := "Fact A duplicate", source_url := "https://ex/a2",
    last_verified := "2025-01-02", confidence := .low }

def witReg1 : FactsRegistry :=
  { version := "1.0.0", last_updated := "2025-01-01", scope := "boston_rpp",
    facts := [witFactA, witFactB] }

def witReg2 : FactsRegistry :=
  { version := "1.0.0", last_updated := "2025-01-02", scope := "boston_other",
    facts := [witFactDup] }

def witService : FactsService := ⟨[("r1", witReg1), ("r2", witReg2)]⟩

/-- A graph store whose lookups all succeed with empty results. -/
def witGraph : GraphStore :=
  ⟨fun _ => .ok none, fun _ => .ok [], fun _ => .ok [],
   fun _ => .ok none, fun _ => .ok [], fun _ => .ok []⟩

/-- A graph store whose lookups all raise. -/
def witGraphRaising : GraphStore :=
  ⟨fun _ => .error "neo4j down", fun _ => .error "neo4j down", fun _ => .error "neo4j down",
   fun _ => .error "neo4j down", fun _ => .error "neo4j down", fun _ => .error "neo4j down"⟩

/-- A fact store whose lookups all raise. -/
def witFactsRaising : FactsStore :=
  ⟨fun _ => .error "yaml corrupt", fun _ => .error "yaml corrupt",
   fun _ => .error "yaml corrupt"⟩

/-- An engine that always answers with final text. -/
def witEngineText : Engine := fun _ => [.textBlock "All done."]

/-- An engine that always requests one `query_facts` tool call. -/
def witEngineTool : Engine := fun _ =>
  [.toolUseBlock "tu1" "query_facts" { query_type := some "by_prefix", pfx := some "rpp." }]

/-- An engine that requests one `query_facts` call, then answers with text. -/
def witEngineOneTool : Engine := fun n =>
  if n = 0 then
    [.toolUseBlock "tu1" "query_facts" { query_type := some "by_prefix", pfx := some "rpp.a" }]
  else [.textBlock "answer"]

/-- Fact dictionaries used by the extraction witnesses: two sharing the id
`"rpp.a"` with different payloads, one with a distinct id, and one missing
its `id` key. -/
def witFD_A : FactData :=
  { id := some "rpp.a", source_url := some "uA", text := some "tA" }

def witFD_A2 : FactData :=
  { id := some "rpp.a", source_url := some "uA2", text := some "tA2",
    source_section := some "s2" }

def witFD_B : FactData :=
  { id := some "rpp.b", source_url := some "uB", text := some "tB" }

def witFD_NoId : FactData :=
  { source_url := some "u", text := some "t" }

/-! ## Helper lemmas -/

/-- The empty string is a prefix of every string. -/
theorem strStartsWith_empty (s : String) : strStartsWith s "" = true := by
  simp [ strStartsWith]

theorem foldl_append_eq {α β : Type} (h : α → List β) :
    ∀ (l : List α) (init : List β),
      l.foldl (fun acc p => acc ++ h p) init = init ++ (l.map h).flatten
  | [], init => by simp
  | p :: l, init => by
    simp only [List.foldl_cons, List.map_cons, List.flatten_cons]
    rw [foldl_append_eq h l (init ++ h p)]
    simp

theorem filter_flatten {α : Type} (p : α → Bool) :
    ∀ (L : List (List α)), L.flatten.filter p = (L.map (fun l => l.filter p)).flatten
  | [] => rfl
  | l :: L => by
    simp only [List.flatten_cons, List.filter_append, List.map_cons]
    rw [filter_flatten p L]

theorem findSome?_find?_flatten {α : Type} (pred : α → Bool) :
    ∀ (L : List (List α)), L.findSome? (fun l => l.find? pred) = L.flatten.find? pred
  | [] => rfl
  | l :: L => by
    simp only [List.findSome?_cons, List.flatten_cons, List.find?_append]
    cases h : l.find? pred with
    | none =>
      rw [findSome?_find?_flatten pred L]
      simp [h]
    | some x => simp [h]

/-- `get_all_facts` is the concatenation of the cached registries' fact
lists, in insertion order. -/
theorem get_all_facts_eq (s : FactsService) :
    FactsService.get_all_facts s = (s.cache.map (fun p => p.2.facts)).flatten := by
  unfold FactsService.get_all_facts
  rw [foldl_append_eq (fun p => p.2.facts) s.cache []]
  simp

theorem get_facts_by_pfx_eq (s : FactsService) (pfx : String) :
    FactsService.get_facts_by_prefix s pfx
      = (s.cache.map (fun p => p.2.facts.filter (fun f => strStartsWith f.id pfx))).flatten := by
  unfold FactsService.get_facts_by_prefix
  rw [foldl_append_eq (fun p => p.2.facts.filter (fun f => strStartsWith f.id pfx)) s.cache []]
  simp

/-! ## Claims about the Fact Store (C8, C10) and the dispatcher guard (C9) -/

/-- `get_facts_by_prefix` is the prefix-filter of `get_all_facts`. -/
theorem get_facts_by_pfx_filter (s : FactsService) (q : String) :
    FactsService.get_facts_by_prefix s q
      = ( FactsService.get_all_facts s).filter (fun f => strStartsWith f.id q) := by
  rw [get_facts_by_pfx_eq, get_all_facts_eq, filter_flatten]
  simp [Function.comp_def]

/-- The empty prefix matches every loaded fact. -/
theorem get_facts_by_pfx_empty (s : FactsService) :
    FactsService.get_facts_by_prefix s "" = FactsService.get_all_facts s := by
  rw [get_facts_by_pfx_filter]
  apply List.filter_eq_self.mpr
  intro a _
  exact strStartsWith_empty a.id

/-- C8.  Fact Store prefix query semantics: `get_facts_by_prefix` returns
exactly the facts (of all loaded registries, in insertion order) whose `id`
starts with the prefix; the empty prefix returns every loaded fact; a prefix
matching nothing returns `[]`.  The method is a total function of the cache
state, so it never raises. -/
theorem facts_by_pfx_spec (s : FactsService) (pfx : String) :
    ( FactsService.get_facts_by_prefix s pfx
        = ( FactsService.get_all_facts s).filter (fun f => strStartsWith f.id pfx)) ∧
    ( FactsService.get_facts_by_prefix s "" = FactsService.get_all_facts s) ∧
    ((∀ fa ∈ FactsService.get_all_facts s, ¬ strStartsWith fa.id pfx) →
      FactsService.get_facts_by_prefix s pfx = []) := by
  refine ⟨get_facts_by_pfx_filter s pfx, get_facts_by_pfx_empty s, ?_⟩
  intro h
  rw [get_facts_by_pfx_filter]
  apply List.filter_eq_nil_iff.mpr
  intro a ha
  simpa using h a ha

/-- C8 witness: a concrete two-registry service, evaluated on a matching
prefix, the empty prefix, and a prefix matching nothing. -/
theorem facts_by_pfx_spec_witness :
    ( FactsService.get_facts_by_prefix witService "rpp.a"
        = ( FactsService.get_all_facts witService).filter (fun f => strStartsWith f.id "rpp.a")) ∧
    ( FactsService.get_facts_by_prefix witService "" = FactsService.get_all_facts witService) ∧
    FactsService.get_facts_by_prefix witService "zzz" = [] :=
  ⟨(facts_by_pfx_spec witService "rpp.a").1,
   (facts_by_pfx_spec witService "rpp.a").2.1,
   (facts_by_pfx_spec witService "zzz").2.2 (by decide)⟩

/-- C9.  The empty prefix is unreachable through the tool interface: a
`query_facts` invocation with `query_type = "by_prefix"` and a falsy
`prefix` (absent key or empty string) is answered by
`{"error": "Missing required parameter: prefix"}` for every backing fact
store — the result does not depend on the store, so the store is never
consulted — even though the store itself, asked directly with the empty
prefix, would return every loaded fact. -/
theorem dispatcher_blocks_empty_pfx (f : FactsStore) (tool_input : ToolInput)
    (hq : truthy tool_input.query_type = some "by_prefix")
    (hp : truthy tool_input.pfx = none) :
    execute_facts_query f tool_input
        = .ok { error := some "Missing required parameter: prefix" } ∧
    (∀ s : FactsService, FactsService.get_facts_by_prefix s ""
        = FactsService.get_all_facts s) := by
  constructor
  · simp [execute_facts_query, hq, hp]
  · exact get_facts_by_pfx_empty

/-- C9 witness: the dispatcher blocks the empty prefix even over a store
whose every method would raise. -/
theorem dispatcher_blocks_empty_pfx_witness :
    execute_facts_query witFactsRaising
        { query_type := some "by_prefix", pfx := some "" }
        = .ok { error := some "Missing required parameter: prefix" } ∧
    FactsService.get_facts_by_prefix witService "" = FactsService.get_all_facts witService :=
  ⟨(dispatcher_blocks_empty_pfx witFactsRaising
      { query_type := some "by_prefix", pfx := some "" } (by decide) (by decide)).1,
   (dispatcher_blocks_empty_pfx witFactsRaising
      { query_type := some "by_prefix", pfx := some "" } (by decide) (by decide)).2 witService⟩

/-- C10.  Cross-registry lookup is first-match: `get_fact_by_id` is the first
match over the concatenation of all loaded registries' facts in load order
(so when two registries share an id, the registry loaded earliest wins), it
returns `none` exactly when no loaded registry contains the id, and
`load_registry` validates id-uniqueness only against the new registry's own
facts — a registry whose ids overlap an already-loaded registry's is
accepted and appended. -/
theorem cross_registry_first_match (s : FactsService) (fid : String) :
    ( FactsService.get_fact_by_id s fid
        = ( FactsService.get_all_facts s).find? (fun f => f.id == fid)) ∧
    ( FactsService.get_fact_by_id s fid = none ↔
        ∀ fa ∈ FactsService.get_all_facts s, fa.id ≠ fid) ∧
    (∀ (registry_name : String) (data : FactsRegistry),
      s.cache.find? (fun p => p.1 == registry_name) = none →
      FactsRegistry.validateB data = true →
      FactsService.load_registry s registry_name data
        = .ok (⟨s.cache ++ [(registry_name, data)]⟩, data)) := by
  have key : FactsService.get_fact_by_id s fid
      = ( FactsService.get_all_facts s).find? (fun f => f.id == fid) := by
    unfold FactsService.get_fact_by_id
    rw [get_all_facts_eq, ← findSome?_find?_flatten]
    rw [List.findSome?_map]
    rfl
  refine ⟨key, ?_, ?_⟩
  · rw [key, List.find?_eq_none]
    simp
  · intro registry_name data h1 h2
    unfold FactsService.load_registry
    rw [h1]
    simp [h2]

/-- C10 witness: `witService` holds two registries both containing id
`"rpp.a.one"`; lookup returns the first registry's fact (not the
duplicate), a missing id returns `none`, and loading the overlapping second
registry into a service holding only the first succeeds. -/
theorem cross_registry_first_match_witness :
    FactsService.get_fact_by_id witService "rpp.a.one" = some witFactA ∧
    witFactDup.id = witFactA.id ∧ witFactDup ≠ witFactA ∧
    FactsService.get_fact_by_id witService "rpp.nope" = none ∧
    FactsService.load_registry ⟨[("r1", witReg1)]⟩ "r2" witReg2
      = .ok (⟨[("r1", witReg1), ("r2", witReg2)]⟩, witReg2) := by
  refine ⟨?_, by decide, by decide, ?_, ?_⟩
  · rw [(cross_registry_first_match witService "rpp.a.one").1]
    decide
  · rw [(cross_registry_first_match witService "rpp.nope").1]
    decide
  · exact (cross_registry_first_match ⟨[("r1", witReg1)]⟩ "x").2.2 "r2" witReg2
      (by decide) (by decide)

/-! ## C6: tool dispatch totality and sanitization -/

/-- C6.  Tool dispatch totality and sanitization.  `execute_tool_call` is a
total function into plain structured results (it cannot raise, by its type).
An unknown tool name is turned into the sanitized structured error payload;
an unknown `query_type` yields a structured `Unknown query_type` error; a
missing required companion field (`process_id`, `step_id`, `requirement_id`,
`fact_id`, `prefix`) yields a structured missing-parameter error; and any
exception raised by a backing store (any `.error` outcome of the routed
query) is converted into `internalErrorPayload tool_name`, whose `message`
is the fixed user-safe string `sanitizedToolErrorMessage` — the payload is
the same for every exception, so the exception's text never appears in it. -/
theorem tool_dispatch_total (g : GraphStore) (f : FactsStore) (tool_name : String)
    (tool_input : ToolInput) :
    ((internalErrorPayload tool_name).message = some sanitizedToolErrorMessage) ∧
    (tool_name ≠ "query_graph" → tool_name ≠ "query_facts" →
      execute_tool_call g f tool_name tool_input = internalErrorPayload tool_name) ∧
    (∀ qt, truthy tool_input.query_type = some qt →
      qt ∉ (["get_process", "get_process_steps", "get_process_requirements",
             "get_step_office", "get_step_documents",
             "get_requirement_documents"] : List String) →
      execute_tool_call g f "query_graph" tool_input
        = { error := some ("Unknown query_type: " ++ qt) }) ∧
    (∀ qt, truthy tool_input.query_type = some qt →
      qt ∉ (["by_id", "by_prefix", "all"] : List String) →
      execute_tool_call g f "query_facts" tool_input
        = { error := some ("Unknown query_type: " ++ qt) }) ∧
    (truthy tool_input.query_type = none →
      execute_tool_call g f "query_graph" tool_input
        = { error := some "Missing required parameter: query_type" } ∧
      execute_tool_call g f "query_facts" tool_input
        = { error := some "Missing required parameter: query_type" }) ∧
    (truthy tool_input.process_id = none →
      (truthy tool_input.query_type = some "get_process" ∨
       truthy tool_input.query_type = some "get_process_steps" ∨
       truthy tool_input.query_type = some "get_process_requirements") →
      execute_tool_call g f "query_graph" tool_input
        = { error := some "Missing required parameter: process_id" }) ∧
    (truthy tool_input.step_id = none →
      (truthy tool_input.query_type = some "get_step_office" ∨
       truthy tool_input.query_type = some "get_step_documents") →
      execute_tool_call g f "query_graph" tool_input
        = { error := some "Missing required parameter: step_id" }) ∧
    (truthy tool_input.requirement_id = none →
      truthy tool_input.query_type = some "get_requirement_documents" →
      execute_tool_call g f "query_graph" tool_input
        = { error := some "Missing required parameter: requirement_id" }) ∧
    (truthy tool_input.fact_id = none →
      truthy tool_input.query_type = some "by_id" →
      execute_tool_call g f "query_facts" tool_input
        = { error := some "Missing required parameter: fact_id" }) ∧
    (truthy tool_input.pfx = none →
      truthy tool_input.query_type = some "by_prefix" →
      execute_tool_call g f "query_facts" tool_input
        = { error := some "Missing required parameter: prefix" }) ∧
    (∀ e, execute_graph_query g tool_input = .error e →
      execute_tool_call g f "query_graph" tool_input
        = internalErrorPayload "query_graph") ∧
    (∀ e, execute_facts_query f tool_input = .error e →
      execute_tool_call g f "query_facts" tool_input
        = internalErrorPayload "query_facts") := by
  refine ⟨rfl, ?_, ?_, ?_, ?_, ?_, ?_, ?_, ?_, ?_, ?_, ?_⟩
  · intro h1 h2
    simp [execute_tool_call, h1, h2]
  · intro qt hq hmem
    simp only [List.mem_cons, List.not_mem_nil, or_false, not_or] at hmem
    obtain ⟨n1, n2, n3, n4, n5, n6⟩ := hmem
    simp [execute_tool_call, execute_graph_query, hq, n1, n2, n3, n4, n5, n6]
  · intro qt hq hmem
    simp only [List.mem_cons, List.not_mem_nil, or_false, not_or] at hmem
    obtain ⟨n1, n2, n3⟩ := hmem
    simp [execute_tool_call, execute_facts_query, hq, n1, n2, n3]
  · intro h
    constructor
    · simp [execute_tool_call, execute_graph_query, h]
    · simp [execute_tool_call, execute_facts_query, h]
  · intro hp hq
    rcases hq with h | h | h <;> simp [execute_tool_call, execute_graph_query, h, hp]
  · intro hp hq
    rcases hq with h | h <;> simp [execute_tool_call, execute_graph_query, h, hp]
  · intro hp hq
    simp [execute_tool_call, execute_graph_query, hq, hp]
  · intro hp hq
    simp [execute_tool_call, execute_facts_query, hq, hp]
  · intro hp hq
    simp [execute_tool_call, execute_facts_query, hq, hp]
  · intro e he
    simp [execute_tool_call, he]
  · intro e he
    simp [execute_tool_call, he]

/-- C6 witness: each dispatch failure mode evaluated at concrete inputs,
including backing stores that raise. -/
theorem tool_dispatch_total_witness :
    execute_tool_call witGraph ( FactsService.toStore witService) "bogus_tool" {}
      = internalErrorPayload "bogus_tool" ∧
    execute_tool_call witGraph ( FactsService.toStore witService) "query_graph"
      { query_type := some "bogus" } = { error := some ("Unknown query_type: " ++ "bogus") } ∧
    execute_tool_call witGraph ( FactsService.toStore witService) "query_facts"
      { query_type := some "bogus" } = { error := some ("Unknown query_type: " ++ "bogus") } ∧
    execute_tool_call witGraph ( FactsService.toStore witService) "query_graph" {}
      = { error := some "Missing required parameter: query_type" } ∧
    execute_tool_call witGraph ( FactsService.toStore witService) "query_graph"
      { query_type := some "get_process" }
      = { error := some "Missing required parameter: process_id" } ∧
    execute_tool_call witGraph ( FactsService.toStore witService) "query_graph"
      { query_type := some "get_step_office" }
      = { error := some "Missing required parameter: step_id" } ∧
    execute_tool_call witGraph ( FactsService.toStore witService) "query_graph"
      { query_type := some "get_requirement_documents" }
      = { error := some "Missing required parameter: requirement_id" } ∧
    execute_tool_call witGraph ( FactsService.toStore witService) "query_facts"
      { query_type := some "by_id" }
      = { error := some "Missing required parameter: fact_id" } ∧
    execute_tool_call witGraph ( FactsService.toStore witService) "query_facts"
      { query_type := some "by_prefix", pfx := some "" }
      = { error := some "Missing required parameter: prefix" } ∧
    execute_tool_call witGraphRaising ( FactsService.toStore witService) "query_graph"
      { query_type := some "get_process", process_id := some "p1" }
      = internalErrorPayload "query_graph" ∧
    execute_tool_call witGraph witFactsRaising "query_facts"
      { query_type := some "all" } = internalErrorPayload "query_facts" :=
  ⟨(tool_dispatch_total witGraph ( FactsService.toStore witService) "bogus_tool" {}).2.1
      (by decide) (by decide),
   (tool_dispatch_total witGraph ( FactsService.toStore witService) "x"
      { query_type := some "bogus" }).2.2.1 "bogus" (by decide) (by decide),
   (tool_dispatch_total witGraph ( FactsService.toStore witService) "x"
      { query_type := some "bogus" }).2.2.2.1 "bogus" (by decide) (by decide),
   ((tool_dispatch_total witGraph ( FactsService.toStore witService) "x" {}).2.2.2.2.1
      (by decide)).1,
   (tool_dispatch_total witGraph ( FactsService.toStore witService) "x"
      { query_type := some "get_process" }).2.2.2.2.2.1 (by decide) (by decide),
   (tool_dispatch_total witGraph ( FactsService.toStore witService) "x"
      { query_type := some "get_step_office" }).2.2.2.2.2.2.1 (by decide) (by decide),
   (tool_dispatch_total witGraph ( FactsService.toStore witService) "x"
      { query_type := some "get_requirement_documents" }).2.2.2.2.2.2.2.1
      (by decide) (by decide),
   (tool_dispatch_total witGraph ( FactsService.toStore witService) "x"
      { query_type := some "by_id" }).2.2.2.2.2.2.2.2.1 (by decide) (by decide),
   (tool_dispatch_total witGraph ( FactsService.toStore witService) "x"
      { query_type := some "by_prefix", pfx := some "" }).2.2.2.2.2.2.2.2.2.1
      (by decide) (by decide),
   (tool_dispatch_total witGraphRaising ( FactsService.toStore witService) "x"
      { query_type := some "get_process", process_id := some "p1" }).2.2.2.2.2.2.2.2.2.2.1
      "neo4j down" (by decide),
   (tool_dispatch_total witGraph witFactsRaising "x"
      { query_type := some "all" }).2.2.2.2.2.2.2.2.2.2.2 "yaml corrupt" (by decide)⟩

/-! ## Lemmas about the orchestration loop -/

/-- The loop never reports fewer engine calls than it started with. -/
theorem askLoop_calls_mono (g : GraphStore) (f : FactsStore) (engine : Engine)
    (maxIter : Int) :
    ∀ (fuel calls : Nat) (messages : List Msg) (results : List ToolResult)
      (tcm : List String),
      calls ≤ (askLoop g f engine maxIter fuel calls messages results tcm).engine_calls
  | 0, calls, _, _, _ => Nat.le_refl _
  | fuel + 1, calls, messages, results, tcm => by
    rw [askLoop]
    by_cases h : (toolUses (engine calls)).isEmpty
    · by_cases h2 : (textBlocks (engine calls)).isEmpty
      · simp only [h, h2, if_true]
        omega
      · simp only [h, h2, if_true, if_false, Bool.false_eq_true]
        omega
    · simp only [h, if_false, Bool.false_eq_true]
      have := askLoop_calls_mono g f engine maxIter fuel (calls + 1)
        (messages ++ [⟨"assistant", .blocks (engine calls)⟩,
          ⟨"user", .toolResults ((toolUses (engine calls)).map
            (fun u => ⟨u.1, execute_tool_call g f u.2.1 u.2.2⟩))⟩])
        (results ++ (toolUses (engine calls)).map
          (fun u => execute_tool_call g f u.2.1 u.2.2))
        (tcm ++ (toolUses (engine calls)).map (fun u => u.2.1))
      omega

/-- With at least one iteration of fuel, at least one engine call is made. -/
theorem askLoop_calls_pos (g : GraphStore) (f : FactsStore) (engine : Engine)
    (maxIter : Int) (fuel calls : Nat) (messages : List Msg)
    (results : List ToolResult) (tcm : List String) (h : 1 ≤ fuel) :
    calls + 1 ≤ (askLoop g f engine maxIter fuel calls messages results tcm).engine_calls := by
  cases fuel with
  | zero => omega
  | succ n =>
    rw [askLoop]
    by_cases h1 : (toolUses (engine calls)).isEmpty
    · by_cases h2 : (textBlocks (engine calls)).isEmpty
      · simp only [h1, h2, if_true]
        omega
      · simp only [h1, h2, if_true, if_false, Bool.false_eq_true]
        omega
    · simp only [h1, if_false, Bool.false_eq_true]
      have := askLoop_calls_mono g f engine maxIter n (calls + 1)
        (messages ++ [⟨"assistant", .blocks (engine calls)⟩,
          ⟨"user", .toolResults ((toolUses (engine calls)).map
            (fun u => ⟨u.1, execute_tool_call g f u.2.1 u.2.2⟩))⟩])
        (results ++ (toolUses (engine calls)).map
          (fun u => execute_tool_call g f u.2.1 u.2.2))
        (tcm ++ (toolUses (engine calls)).map (fun u => u.2.1))
      omega

/-- While the engine keeps requesting tools, the loop spends all its fuel and
fails with the max-iterations error, having made exactly one engine call per
unit of fuel. -/
theorem askLoop_all_tools (g : GraphStore) (f : FactsStore) (engine : Engine)
    (maxIter : Int) :
    ∀ (fuel calls : Nat) (messages : List Msg) (results : List ToolResult)
      (tcm : List String),
      (∀ i, i < fuel → toolUses (engine (calls + i)) ≠ []) →
      (askLoop g f engine maxIter fuel calls messages results tcm).result
          = .error (.agentError
              ("Max iterations (" ++ toString maxIter ++ ") reached without final response"))
        ∧ (askLoop g f engine maxIter fuel calls messages results tcm).engine_calls
            = calls + fuel
  | 0, calls, _, _, _, _ => ⟨rfl, rfl⟩
  | fuel + 1, calls, messages, results, tcm, h => by
    have h0 : toolUses (engine calls) ≠ [] := by
      have := h 0 (Nat.succ_pos fuel)
      simpa using this
    have hne : (toolUses (engine calls)).isEmpty = false := by
      cases hu : toolUses (engine calls) with
      | nil => exact absurd hu h0
      | cons a l => rfl
    rw [askLoop]
    simp only [hne, if_false, Bool.false_eq_true]
    have ih := askLoop_all_tools g f engine maxIter fuel (calls + 1)
      (messages ++ [⟨"assistant", .blocks (engine calls)⟩,
        ⟨"user", .toolResults ((toolUses (engine calls)).map
          (fun u => ⟨u.1, execute_tool_call g f u.2.1 u.2.2⟩))⟩])
      (results ++ (toolUses (engine calls)).map
        (fun u => execute_tool_call g f u.2.1 u.2.2))
      (tcm ++ (toolUses (engine calls)).map (fun u => u.2.1))
      (fun i hi => by
        have hadd : calls + 1 + i = calls + (i + 1) := by omega
        rw [hadd]
        exact h (i + 1) (by omega))
    exact ⟨ih.1, by omega⟩

/-- Every tool result the loop accumulates beyond its starting list is an
output of `execute_tool_call`. -/
theorem askLoop_results_from_dispatch (g : GraphStore) (f : FactsStore)
    (engine : Engine) (maxIter : Int) :
    ∀ (fuel calls : Nat) (messages : List Msg) (results : List ToolResult)
      (tcm : List String) (r : ToolResult),
      r ∈ (askLoop g f engine maxIter fuel calls messages results tcm).tool_results →
      r ∈ results ∨ ∃ tool_name tool_input, r = execute_tool_call g f tool_name tool_input
  | 0, calls, _, results, tcm, r => fun hr => .inl hr
  | fuel + 1, calls, messages, results, tcm, r => by
    rw [askLoop]
    by_cases h1 : (toolUses (engine calls)).isEmpty
    · by_cases h2 : (textBlocks (engine calls)).isEmpty
      · simp only [h1, h2, if_true]
        exact fun hr => .inl hr
      · simp only [h1, h2, if_true, if_false, Bool.false_eq_true]
        exact fun hr => .inl hr
    · simp only [h1, if_false, Bool.false_eq_true]
      intro hr
      have ih := askLoop_results_from_dispatch g f engine maxIter fuel (calls + 1)
        (messages ++ [⟨"assistant", .blocks (engine calls)⟩,
          ⟨"user", .toolResults ((toolUses (engine calls)).map
            (fun u => ⟨u.1, execute_tool_call g f u.2.1 u.2.2⟩))⟩])
        (results ++ (toolUses (engine calls)).map
          (fun u => execute_tool_call g f u.2.1 u.2.2))
        (tcm ++ (toolUses (engine calls)).map (fun u => u.2.1))
        r hr
      rcases ih with hmem | hout
      · rcases List.mem_append.mp hmem with hl | hnew
        · exact .inl hl
        · rcases List.mem_map.mp hnew with ⟨u, _, hu⟩
          exact .inr ⟨u.2.1, u.2.2, hu.symm⟩
      · exact .inr hout

/-- A successful loop outcome carries exactly the citations extracted from
the accumulated tool results, and the accumulated `tool_calls_made`. -/
theorem askLoop_ok_citations (g : GraphStore) (f : FactsStore) (engine : Engine)
    (maxIter : Int) :
    ∀ (fuel calls : Nat) (messages : List Msg) (results : List ToolResult)
      (tcm : List String) (resp : ConversationResponse),
      (askLoop g f engine maxIter fuel calls messages results tcm).result = .ok resp →
      resp.citations
          = extractCitations
              (askLoop g f engine maxIter fuel calls messages results tcm).tool_results
        ∧ resp.tool_calls_made
            = (askLoop g f engine maxIter fuel calls messages results tcm).tool_calls_made
  | 0, calls, _, results, tcm, resp => by
    intro h
    exact absurd h (by simp [askLoop])
  | fuel + 1, calls, messages, results, tcm, resp => by
    rw [askLoop]
    by_cases h1 : (toolUses (engine calls)).isEmpty
    · by_cases h2 : (textBlocks (engine calls)).isEmpty
      · simp only [h1, h2, if_true]
        intro h
        exact absurd h (by simp)
      · simp only [h1, h2, if_true, if_false, Bool.false_eq_true]
        intro h
        cases h
        exact ⟨rfl, rfl⟩
    · simp only [h1, if_false, Bool.false_eq_true]
      exact askLoop_ok_citations g f engine maxIter fuel (calls + 1) _ _ _ resp

/-- A valid question and in-range iteration bound reach the loop, seeded with
the single user message holding the stripped question. -/
theorem askRun_valid (g : GraphStore) (f : FactsStore) (engine : Engine)
    (question : String) (m : Int) (hq : strTrim question ≠ "")
    (hlen : question.length ≤ 10000) (h1 : 1 ≤ m) (h2 : m ≤ 20) :
    askRun g f engine question m
      = askLoop g f engine m m.toNat 0 [⟨"user", .text (strTrim question)⟩] [] [] := by
  unfold askRun
  have hq0 : ¬(question = "" ∨ strTrim question = "") := by
    rintro (h | h)
    · exact hq (by rw [h]; rfl)
    · exact hq h
  rw [if_neg hq0, if_neg (by omega : ¬(10000 < question.length)),
    if_neg (by omega : ¬(m < 1 ∨ 20 < m))]

/-! ## C2, C3, C7: orchestration loop boundary behavior -/

/-- C2.  Iteration bound enforcement: for a valid question and any
`N ∈ [1, 20]`, if every engine response contains at least one tool-use
request, `ask(question, max_iterations = N)` fails with the max-iterations
orchestration error after exactly `N` engine calls; an out-of-range
`max_iterations` is rejected by a validation error with zero engine calls
and zero tool dispatches; and the default bound is 5. -/
theorem iteration_bound (g : GraphStore) (f : FactsStore) (engine : Engine)
    (question : String) (N : Nat) (hq : strTrim question ≠ "")
    (hlen : question.length ≤ 10000) (h1 : 1 ≤ N) (h2 : N ≤ 20)
    (htools : ∀ i, i < N → toolUses (engine i) ≠ []) :
    ((askRun g f engine question (N : Int)).result
        = .error (.agentError
            ("Max iterations (" ++ toString (N : Int) ++ ") reached without final response"))
      ∧ (askRun g f engine question (N : Int)).engine_calls = N) ∧
    (∀ m : Int, (m < 1 ∨ 20 < m) →
      askRun g f engine question m
        = ⟨.error (.validationError "max_iterations must be an integer between 1 and 20"),
           0, [], []⟩) ∧
    ask g f engine question = ask g f engine question 5 := by
  refine ⟨?_, ?_, rfl⟩
  · rw [askRun_valid g f engine question (N : Int) hq hlen (by omega) (by omega)]
    have htoNat : ((N : Int)).toNat = N := by simp
    rw [htoNat]
    have key := askLoop_all_tools g f engine (N : Int) N 0
      [⟨"user", .text (strTrim question)⟩] [] []
      (fun i hi => by simpa using htools i hi)
    exact ⟨key.1, by omega⟩
  · intro m hm
    unfold askRun
    have hq0 : ¬(question = "" ∨ strTrim question = "") := by
      rintro (h | h)
      · exact hq (by rw [h]; rfl)
      · exact hq h
    rw [if_neg hq0, if_neg (by omega : ¬(10000 < question.length)), if_pos hm]

/-- C2 witness: with an engine that always requests a tool call, `N = 2`
yields the max-iterations error after exactly 2 engine calls; `N = 0` and
`N = 21` are rejected with no engine call; the default bound is 5. -/
theorem iteration_bound_witness :
    ((askRun witGraph ( FactsService.toStore witService) witEngineTool "How?" (2 : Int)).result
        = .error (.agentError
            ("Max iterations (" ++ toString ((2 : Nat) : Int) ++ ") reached without final response"))
      ∧ (askRun witGraph ( FactsService.toStore witService) witEngineTool "How?" (2 : Int)).engine_calls
          = 2) ∧
    askRun witGraph ( FactsService.toStore witService) witEngineTool "How?" 0
      = ⟨.error (.validationError "max_iterations must be an integer between 1 and 20"),
         0, [], []⟩ ∧
    askRun witGraph ( FactsService.toStore witService) witEngineTool "How?" 21
      = ⟨.error (.validationError "max_iterations must be an integer between 1 and 20"),
         0, [], []⟩ ∧
    ask witGraph ( FactsService.toStore witService) witEngineTool "How?"
      = ask witGraph ( FactsService.toStore witService) witEngineTool "How?" 5 := by
  have main := iteration_bound witGraph ( FactsService.toStore witService) witEngineTool
    "How?" 2 (by decide) (by decide) (by omega) (by omega)
    (fun i _ => by simp [witEngineTool, toolUses])
  exact ⟨main.1, main.2.1 0 (by omega), main.2.1 21 (by omega), main.2.2⟩

/-- `strTrim` leaves a run of one repeated non-whitespace character alone. -/
theorem strTrim_mk_replicate {n : Nat} {c : Char} (h : c.isWhitespace = false) :
    strTrim ⟨List.replicate n c⟩ = ⟨List.replicate n c⟩ := by
  simp [ strTrim, List.dropWhile_replicate, h, List.reverse_replicate]

theorem mk_replicate_ne_empty {n : Nat} {c : Char} (h : 0 < n) :
    (⟨List.replicate n c⟩ : String) ≠ "" := by
  intro hcon
  have : List.replicate n c = ([] : List Char) := congrArg String.data hcon
  rw [List.replicate_eq_nil_iff] at this
  omega

theorem length_mk (l : List Char) : (String.mk l).length = l.length := rfl

/-- C3.  Input boundary: a question that is empty after stripping fails with
the empty-question validation error and a question longer than 10000
characters fails with the length validation error, in both cases with zero
engine calls, zero tool results and zero tool dispatches (the trace is
`⟨error, 0, [], []⟩`, and it is the same for every engine and store, so
neither is consulted); a question of at most 10000 characters (the bound is
inclusive) with nonempty stripped text passes validation, after which the
engine is called at least once. -/
theorem input_boundary (g : GraphStore) (f : FactsStore) (engine : Engine)
    (question : String) (m : Int) :
    (strTrim question = "" →
      askRun g f engine question m
        = ⟨.error (.validationError "Question cannot be empty"), 0, [], []⟩) ∧
    (strTrim question ≠ "" → 10000 < question.length →
      askRun g f engine question m
        = ⟨.error (.validationError "Question exceeds maximum length of 10000 characters"),
           0, [], []⟩) ∧
    (strTrim question ≠ "" → question.length ≤ 10000 → 1 ≤ m → m ≤ 20 →
      1 ≤ (askRun g f engine question m).engine_calls) := by
  refine ⟨?_, ?_, ?_⟩
  · intro h
    unfold askRun
    rw [if_pos (Or.inr h)]
  · intro hq hl
    unfold askRun
    have hq0 : ¬(question = "" ∨ strTrim question = "") := by
      rintro (h | h)
      · exact hq (by rw [h]; rfl)
      · exact hq h
    rw [if_neg hq0, if_pos hl]
  · intro hq hl h1 h2
    rw [askRun_valid g f engine question m hq hl h1 h2]
    have := askLoop_calls_pos g f engine m m.toNat 0
      [⟨"user", .text (strTrim question)⟩] [] [] (by omega)
    omega

/-- C3 witness: `ask("")` and `ask("   ")` are rejected before any engine or
tool call; a 10001-character question is rejected by the length check; a
10000-character question passes validation and reaches the engine. -/
theorem input_boundary_witness :
    askRun witGraph ( FactsService.toStore witService) witEngineText "" 5
      = ⟨.error (.validationError "Question cannot be empty"), 0, [], []⟩ ∧
    askRun witGraph ( FactsService.toStore witService) witEngineText "   " 5
      = ⟨.error (.validationError "Question cannot be empty"), 0, [], []⟩ ∧
    askRun witGraph ( FactsService.toStore witService) witEngineText
        ⟨List.replicate 10001 'a'⟩ 5
      = ⟨.error (.validationError "Question exceeds maximum length of 10000 characters"),
         0, [], []⟩ ∧
    1 ≤ (askRun witGraph ( FactsService.toStore witService) witEngineText
        ⟨List.replicate 10000 'a'⟩ 5).engine_calls := by
  refine ⟨(input_boundary witGraph ( FactsService.toStore witService) witEngineText "" 5).1
      (by decide),
    (input_boundary witGraph ( FactsService.toStore witService) witEngineText "   " 5).1
      (by decide),
    (input_boundary witGraph ( FactsService.toStore witService) witEngineText
        ⟨List.replicate 10001 'a'⟩ 5).2.1 ?_ ?_,
    (input_boundary witGraph ( FactsService.toStore witService) witEngineText
        ⟨List.replicate 10000 'a'⟩ 5).2.2 ?_ ?_ (by omega) (by omega)⟩
  · show strTrim ⟨List.replicate 10001 'a'⟩ ≠ ""
    rw [strTrim_mk_replicate (by decide)]
    exact mk_replicate_ne_empty (by omega)
  · show 10000 < (String.mk (List.replicate 10001 'a')).length
    rw [length_mk, List.length_replicate]
    omega
  · show strTrim ⟨List.replicate 10000 'a'⟩ ≠ ""
    rw [strTrim_mk_replicate (by decide)]
    exact mk_replicate_ne_empty (by omega)
  · show (String.mk (List.replicate 10000 'a')).length ≤ 10000
    rw [length_mk, List.length_replicate]

/-- C7 counterexample.  The claim says the loop's initial history holds the
question verbatim, "character for character, including any surrounding
whitespace".  At the valid question `" hi "` the code (line 436,
`question = question.strip()`, executed before the history is seeded at
line 444) enters the loop with the single user message `"hi"`, which differs
from the claimed verbatim seeding `" hi "`. -/
theorem question_seeding_counterexample :
    askRun witGraph ( FactsService.toStore witService) witEngineText " hi " 5
      = askLoop witGraph ( FactsService.toStore witService) witEngineText 5 5 0
          [⟨"user", .text "hi"⟩] [] [] ∧
    ([⟨"user", MsgContent.text "hi"⟩] : List Msg)
      ≠ [⟨"user", MsgContent.text " hi "⟩] := by
  constructor
  · rw [askRun_valid witGraph ( FactsService.toStore witService) witEngineText " hi " 5
      (by decide) (by decide) (by omega) (by omega)]
    have h : strTrim " hi " = "hi" := by decide
    rw [h]
    rfl
  · decide

/-- C7 (amended).  Verbatim-after-stripping question seeding: for every valid
question, the loop starts from a history holding exactly one user message,
whose content is the question with surrounding whitespace stripped — equal
to the verbatim question exactly when the question has no surrounding
whitespace. -/
theorem question_seeding (g : GraphStore) (f : FactsStore) (engine : Engine)
    (question : String) (m : Int) (hq : strTrim question ≠ "")
    (hlen : question.length ≤ 10000) (h1 : 1 ≤ m) (h2 : m ≤ 20) :
    askRun g f engine question m
      = askLoop g f engine m m.toNat 0
          [{ role := "user", content := .text (strTrim question) }] [] [] ∧
    (([{ role := "user", content := .text (strTrim question) }] : List Msg)
        = [{ role := "user", content := .text question }]
      ↔ strTrim question = question) := by
  refine ⟨askRun_valid g f engine question m hq hlen h1 h2, ?_⟩
  constructor
  · intro h
    have := congrArg (fun l : List Msg => l.head?) h
    simpa using this
  · intro h
    rw [h]

/-- C7 witness: a question with no surrounding whitespace is seeded exactly
as passed. -/
theorem question_seeding_witness :
    askRun witGraph ( FactsService.toStore witService) witEngineText "hello" 5
      = askLoop witGraph ( FactsService.toStore witService) witEngineText 5 5 0
          [{ role := "user", content := .text "hello" }] [] [] := by
  have main := (question_seeding witGraph ( FactsService.toStore witService) witEngineText
    "hello" 5 (by decide) (by decide) (by omega) (by omega)).1
  have h : strTrim "hello" = "hello" := by decide
  rw [h] at main
  exact main

/-! ## Lemmas about citation extraction -/

/-- An entry the extractor's guard skips leaves the fold state unchanged. -/
theorem citeStep_none : ∀ (fd : FactData), mkCitation fd = none →
    ∀ st : List Citation × List String, citeStep st fd = st := by
  rintro ⟨oi, ou, ot, os⟩ h st
  cases oi with
  | none => rfl
  | some i =>
    cases ou with
    | none => rfl
    | some u =>
      cases ot with
      | none => rfl
      | some t2 =>
        simp only [mkCitation] at h
        split at h
        · next hi => simp [citeStep, hi]
        · exact absurd h (by simp)

/-- An accepted entry carries a `some` fact id. -/
theorem mkCitation_fact_id : ∀ (fd : FactData) (c : Citation),
    mkCitation fd = some c → ∃ fid, c.fact_id = some fid ∧ fd.id = some fid := by
  rintro ⟨oi, ou, ot, os⟩ c h
  cases oi with
  | none => exact absurd h (by simp [mkCitation])
  | some i =>
    cases ou with
    | none => exact absurd h (by simp [mkCitation])
    | some u =>
      cases ot with
      | none => exact absurd h (by simp [mkCitation])
      | some t2 =>
        simp only [mkCitation] at h
        split at h
        · exact absurd h (by simp)
        · cases h
          exact ⟨i, rfl, rfl⟩

/-- An accepted entry's fields transfer to its citation. -/
theorem mkCitation_fields : ∀ (fd : FactData) (c : Citation),
    mkCitation fd = some c →
    fd.id = c.fact_id ∧ fd.source_url = some c.url ∧ fd.text = some c.text ∧
      fd.source_section = c.source_section := by
  rintro ⟨oi, ou, ot, os⟩ c h
  cases oi with
  | none => exact absurd h (by simp [mkCitation])
  | some i =>
    cases ou with
    | none => exact absurd h (by simp [mkCitation])
    | some u =>
      cases ot with
      | none => exact absurd h (by simp [mkCitation])
      | some t2 =>
        simp only [mkCitation] at h
        split at h
        · exact absurd h (by simp)
        · cases h
          exact ⟨rfl, rfl, rfl, rfl⟩

/-- `citeStep` on an accepted entry: append unless the id was seen. -/
theorem citeStep_some : ∀ (fd : FactData) (c : Citation) (fid : String),
    mkCitation fd = some c → c.fact_id = some fid →
    ∀ st : List Citation × List String,
      citeStep st fd = if fid ∈ st.2 then st else (st.1 ++ [c], st.2 ++ [fid]) := by
  rintro ⟨oi, ou, ot, os⟩ c fid h hfid st
  cases oi with
  | none => exact absurd h (by simp [mkCitation])
  | some i =>
    cases ou with
    | none => exact absurd h (by simp [mkCitation])
    | some u =>
      cases ot with
      | none => exact absurd h (by simp [mkCitation])
      | some t2 =>
        simp only [mkCitation] at h
        split at h
        · exact absurd h (by simp)
        · next hi =>
          cases h
          cases hfid
          simp [citeStep, hi]

/-- Soundness of the fold: every citation in the output was in the input
state or originates from `mkCitation` on one of the processed entries. -/
theorem foldl_citeStep_sound :
    ∀ (l : List FactData) (st : List Citation × List String) (c : Citation),
      c ∈ (l.foldl citeStep st).1 → c ∈ st.1 ∨ ∃ fd ∈ l, mkCitation fd = some c
  | [], _, c => fun h => .inl h
  | fd :: l, st, c => by
    intro h
    rw [List.foldl_cons] at h
    rcases foldl_citeStep_sound l (citeStep st fd) c h with hin | ⟨fd', hmem, hmk⟩
    · cases hmk0 : mkCitation fd with
      | none =>
        rw [citeStep_none fd hmk0 st] at hin
        exact .inl hin
      | some c0 =>
        obtain ⟨fid, hfid, _⟩ := mkCitation_fact_id fd c0 hmk0
        rw [citeStep_some fd c0 fid hmk0 hfid st] at hin
        by_cases hseen : fid ∈ st.2
        · rw [if_pos hseen] at hin
          exact .inl hin
        · rw [if_neg hseen] at hin
          rcases List.mem_append.mp hin with h1 | h2
          · exact .inl h1
          · have hc : c = c0 := by simpa using h2
            exact .inr ⟨fd, List.mem_cons_self fd l, by rw [hc]; exact hmk0⟩
    · exact .inr ⟨fd', List.mem_cons_of_mem _ hmem, hmk⟩

/-- The fold only appends to the citation list. -/
theorem foldl_citeStep_sub :
    ∀ (l : List FactData) (st : List Citation × List String),
      ∃ t2, (l.foldl citeStep st).1 = st.1 ++ t2
  | [], st => ⟨[], (List.append_nil _).symm⟩
  | fd :: l, st => by
    rw [List.foldl_cons]
    cases hmk : mkCitation fd with
    | none =>
      rw [citeStep_none fd hmk st]
      exact foldl_citeStep_sub l st
    | some c0 =>
      obtain ⟨fid, hfid, _⟩ := mkCitation_fact_id fd c0 hmk
      rw [citeStep_some fd c0 fid hmk hfid st]
      by_cases hseen : fid ∈ st.2
      · rw [if_pos hseen]
        exact foldl_citeStep_sub l st
      · rw [if_neg hseen]
        obtain ⟨t2, ht⟩ := foldl_citeStep_sub l (st.1 ++ [c0], st.2 ++ [fid])
        exact ⟨c0 :: t2, by simpa using ht⟩

/-- The seen set after the fold: the starting set followed by the first
occurrences of the accepted entries' ids. -/
theorem foldl_citeStep_seen :
    ∀ (l : List FactData) (st : List Citation × List String),
      (l.foldl citeStep st).2
        = st.2 ++ firstIds ((l.filterMap mkCitation).filterMap (fun c => c.fact_id)) st.2
  | [], st => by simp [firstIds]
  | fd :: l, st => by
    rw [List.foldl_cons]
    cases hmk : mkCitation fd with
    | none =>
      rw [citeStep_none fd hmk st]
      have := foldl_citeStep_seen l st
      simpa [List.filterMap_cons, hmk] using this
    | some c0 =>
      obtain ⟨fid, hfid, _⟩ := mkCitation_fact_id fd c0 hmk
      rw [citeStep_some fd c0 fid hmk hfid st]
      by_cases hseen : fid ∈ st.2
      · rw [if_pos hseen]
        have := foldl_citeStep_seen l st
        rw [this]
        simp [List.filterMap_cons, hmk, hfid, firstIds, hseen]
      · rw [if_neg hseen]
        have := foldl_citeStep_seen l (st.1 ++ [c0], st.2 ++ [fid])
        rw [this]
        simp [List.filterMap_cons, hmk, hfid, firstIds, hseen]

/-- The seen set stays synchronized with the citation list's ids. -/
theorem foldl_citeStep_inv :
    ∀ (l : List FactData) (st : List Citation × List String),
      st.2 = st.1.filterMap (fun c => c.fact_id) →
      (l.foldl citeStep st).2 = (l.foldl citeStep st).1.filterMap (fun c => c.fact_id)
  | [], _, hinv => hinv
  | fd :: l, st, hinv => by
    rw [List.foldl_cons]
    cases hmk : mkCitation fd with
    | none =>
      rw [citeStep_none fd hmk st]
      exact foldl_citeStep_inv l st hinv
    | some c0 =>
      obtain ⟨fid, hfid, _⟩ := mkCitation_fact_id fd c0 hmk
      rw [citeStep_some fd c0 fid hmk hfid st]
      by_cases hseen : fid ∈ st.2
      · rw [if_pos hseen]
        exact foldl_citeStep_inv l st hinv
      · rw [if_neg hseen]
        refine foldl_citeStep_inv l (st.1 ++ [c0], st.2 ++ [fid]) ?_
        simp [List.filterMap_append, hfid, hinv]

theorem mem_firstIds :
    ∀ (l seen : List String) (a : String), a ∈ firstIds l seen ↔ a ∈ l ∧ a ∉ seen
  | [], seen, a => by simp [firstIds]
  | i :: is, seen, a => by
    by_cases hi : i ∈ seen
    · rw [show firstIds (i :: is) seen = firstIds is seen from by simp [firstIds, hi]]
      rw [mem_firstIds is seen a]
      constructor
      · rintro ⟨h1, h2⟩
        exact ⟨List.mem_cons_of_mem _ h1, h2⟩
      · rintro ⟨h1, h2⟩
        rcases List.mem_cons.mp h1 with rfl | h1
        · exact absurd hi h2
        · exact ⟨h1, h2⟩
    · rw [show firstIds (i :: is) seen = i :: firstIds is (seen ++ [i]) from by
        simp [firstIds, hi]]
      rw [List.mem_cons, mem_firstIds is (seen ++ [i]) a]
      constructor
      · rintro (rfl | ⟨h1, h2⟩)
        · exact ⟨List.mem_cons_self _ _, hi⟩
        · refine ⟨List.mem_cons_of_mem _ h1, fun hcon => h2 ?_⟩
          simp [hcon]
      · rintro ⟨h1, h2⟩
        rcases List.mem_cons.mp h1 with rfl | h1
        · exact .inl rfl
        · by_cases hai : a = i
          · exact .inl hai
          · refine .inr ⟨h1, fun hcon => ?_⟩
            rcases List.mem_append.mp hcon with hc | hc
            · exact h2 hc
            · exact hai (by simpa using hc)

theorem nodup_firstIds : ∀ (l seen : List String), (firstIds l seen).Nodup
  | [], _ => List.nodup_nil
  | i :: is, seen => by
    by_cases hi : i ∈ seen
    · rw [show firstIds (i :: is) seen = firstIds is seen from by simp [firstIds, hi]]
      exact nodup_firstIds is seen
    · rw [show firstIds (i :: is) seen = i :: firstIds is (seen ++ [i]) from by
        simp [firstIds, hi]]
      refine List.Nodup.cons ?_ (nodup_firstIds is (seen ++ [i]))
      intro hmem
      have := (mem_firstIds is (seen ++ [i]) i).mp hmem
      exact this.2 (by simp)

/-- `countP` on a citation-id predicate agrees with `count` over the
extracted ids. -/
theorem countP_fact_id :
    ∀ (cits : List Citation) (fid : String),
      cits.countP (fun c => c.fact_id == some fid)
        = (cits.filterMap (fun c => c.fact_id)).count fid
  | [], _ => rfl
  | c :: cits, fid => by
    cases hid : c.fact_id with
    | none =>
      simp [List.countP_cons, hid, countP_fact_id cits fid]
    | some i =>
      by_cases h : i = fid
      · simp [List.countP_cons, hid, List.count_cons, countP_fact_id cits fid, h]
      · simp [List.countP_cons, hid, List.count_cons, countP_fact_id cits fid, h]

/-- First-occurrence lookup: when the sought id is neither among the current
citations nor in the seen set, the first produced citation with that id is
the first accepted candidate with that id. -/
theorem foldl_citeStep_find? :
    ∀ (l : List FactData) (cits : List Citation) (seen : List String) (fid : String),
      (∀ c ∈ cits, (c.fact_id == some fid) = false) → fid ∉ seen →
      ((l.foldl citeStep (cits, seen)).1).find? (fun c => c.fact_id == some fid)
        = (l.filterMap mkCitation).find? (fun c => c.fact_id == some fid)
  | [], cits, seen, fid => by
    intro hc _
    simp only [List.foldl_nil, List.filterMap_nil, List.find?_nil]
    exact List.find?_eq_none.mpr (fun x hx => by simp [hc x hx])
  | fd :: l, cits, seen, fid => by
    intro hc hs
    rw [List.foldl_cons]
    cases hmk : mkCitation fd with
    | none =>
      rw [citeStep_none fd hmk _]
      rw [foldl_citeStep_find? l cits seen fid hc hs]
      simp [List.filterMap_cons, hmk]
    | some c0 =>
      obtain ⟨fid0, hfid0, _⟩ := mkCitation_fact_id fd c0 hmk
      rw [citeStep_some fd c0 fid0 hmk hfid0 _]
      by_cases hseen : fid0 ∈ seen
      · rw [show (if fid0 ∈ (cits, seen).2 then (cits, seen)
            else ((cits, seen).1 ++ [c0], (cits, seen).2 ++ [fid0])) = (cits, seen) from by
          simp [hseen]]
        have hne : fid0 ≠ fid := fun h => hs (h ▸ hseen)
        rw [foldl_citeStep_find? l cits seen fid hc hs]
        simp only [List.filterMap_cons, hmk]
        rw [List.find?_cons_of_neg _ (by simp [hfid0, hne])]
      · rw [show (if fid0 ∈ (cits, seen).2 then (cits, seen)
            else ((cits, seen).1 ++ [c0], (cits, seen).2 ++ [fid0]))
            = (cits ++ [c0], seen ++ [fid0]) from by simp [hseen]]
        by_cases heq : fid0 = fid
        · subst heq
          obtain ⟨t2, ht⟩ := foldl_citeStep_sub l (cits ++ [c0], seen ++ [fid0])
          rw [ht, List.find?_append, List.find?_append]
          have h1 : cits.find? (fun c => c.fact_id == some fid0) = none :=
            List.find?_eq_none.mpr (fun x hx => by simp [hc x hx])
          have h2 : [c0].find? (fun c => c.fact_id == some fid0) = some c0 := by
            rw [List.find?_cons_of_pos _ (by simp [hfid0])]
          rw [h1]
          simp only [List.filterMap_cons, hmk]
          rw [List.find?_cons_of_pos _ (by simp [hfid0])]
          rw [List.find?_cons_of_pos _ (by simp [hfid0])]
          simp
        · have hc' : ∀ c ∈ cits ++ [c0], (c.fact_id == some fid) = false := by
            intro c hcmem
            rcases List.mem_append.mp hcmem with h1 | h2
            · exact hc c h1
            · have : c = c0 := by simpa using h2
              subst this
              simp [hfid0, heq]
          have hs' : fid ∉ seen ++ [fid0] := by
            intro hcon
            rcases List.mem_append.mp hcon with h1 | h2
            · exact hs h1
            · have h3 : fid = fid0 := by simpa using h2
              exact heq h3.symm
          rw [foldl_citeStep_find? l (cits ++ [c0]) (seen ++ [fid0]) fid hc' hs']
          simp only [List.filterMap_cons, hmk]
          rw [List.find?_cons_of_neg _ (by simp [hfid0, heq])]

/-- The nested fold of `extractCitations` equals the fold over the flattened
fact-dictionary list. -/
theorem extract_foldl_flat :
    ∀ (rs : List ToolResult) (st : List Citation × List String),
      rs.foldl (fun st r => (resultFacts r).foldl citeStep st) st
        = (flatFacts rs).foldl citeStep st
  | [], st => by simp [flatFacts]
  | r :: rs, st => by
    simp only [List.foldl_cons, flatFacts, List.map_cons, List.flatten_cons,
      List.foldl_append]
    exact extract_foldl_flat rs _

theorem extractCitations_eq_flat (rs : List ToolResult) :
    extractCitations rs = ((flatFacts rs).foldl citeStep ([], [])).1 := by
  unfold extractCitations
  rw [extract_foldl_flat]

/-- Every extracted citation originates, field for field, from a fact
dictionary of one of the tool results. -/
theorem extractCitations_sound (rs : List ToolResult) (c : Citation)
    (h : c ∈ extractCitations rs) :
    ∃ r ∈ rs, ∃ fd ∈ resultFacts r, mkCitation fd = some c := by
  rw [extractCitations_eq_flat] at h
  rcases foldl_citeStep_sound (flatFacts rs) ([], []) c h with h0 | ⟨fd, hfd, hmk⟩
  · cases h0
  · rcases List.mem_flatten.mp hfd with ⟨fs, hfs, hfd2⟩
    rcases List.mem_map.mp hfs with ⟨r, hr, rfl⟩
    exact ⟨r, hr, fd, hfd2, hmk⟩

/-! ## C1, C4, C5: citation extraction claims -/

/-- C5.  Malformed-fact skip: a fact dictionary missing `id`, `source_url`
or `text` contributes nothing to extraction — the fold state is unchanged at
that entry, and extraction of any surrounding tool-result list proceeds
exactly as if the entry were absent, whether it sits in a `facts` list or
under a singular `fact` key.  Extraction is a total function, so no entry
can make it raise. -/
theorem malformed_fact_skip (fd : FactData)
    (h : fd.id = none ∨ fd.source_url = none ∨ fd.text = none) :
    (∀ st : List Citation × List String, citeStep st fd = st) ∧
    (∀ (pre post : List ToolResult) (fs1 fs2 : List FactData),
      extractCitations (pre ++ ({ facts := some (fs1 ++ fd :: fs2) } : ToolResult) :: post)
        = extractCitations (pre ++ ({ facts := some (fs1 ++ fs2) } : ToolResult) :: post)) ∧
    (∀ pre post : List ToolResult,
      extractCitations (pre ++ ({ fact := some (some fd) } : ToolResult) :: post)
        = extractCitations (pre ++ post)) := by
  have hmk : mkCitation fd = none := by
    obtain ⟨oi, ou, ot, os⟩ := fd
    simp only at h
    rcases h with h | h | h
    · subst h
      cases ou <;> cases ot <;> rfl
    · subst h
      cases oi <;> cases ot <;> rfl
    · subst h
      cases oi <;> cases ou <;> rfl
  refine ⟨citeStep_none fd hmk, ?_, ?_⟩
  · intro pre post fs1 fs2
    unfold extractCitations
    rw [List.foldl_append, List.foldl_append, List.foldl_cons, List.foldl_cons]
    have key : ∀ st : List Citation × List String,
        (resultFacts { facts := some (fs1 ++ fd :: fs2) }).foldl citeStep st
          = (resultFacts { facts := some (fs1 ++ fs2) }).foldl citeStep st := by
      intro st
      show (fs1 ++ fd :: fs2).foldl citeStep st = (fs1 ++ fs2).foldl citeStep st
      rw [List.foldl_append, List.foldl_cons, citeStep_none fd hmk, ← List.foldl_append]
    rw [key]
  · intro pre post
    unfold extractCitations
    rw [List.foldl_append, List.foldl_append, List.foldl_cons]
    have key : ∀ st : List Citation × List String,
        (resultFacts { fact := some (some fd) }).foldl citeStep st = st := by
      intro st
      show [fd].foldl citeStep st = st
      rw [List.foldl_cons, citeStep_none fd hmk]
      rfl
    rw [key]

/-- C5 witness: an entry missing `id` is skipped inside a `facts` list and
under a `fact` key, leaving extraction of the rest unchanged. -/
theorem malformed_fact_skip_witness :
    citeStep ([], []) witFD_NoId = ([], []) ∧
    extractCitations [{ facts := some ([] ++ witFD_NoId :: [witFD_B]) }]
      = extractCitations [{ facts := some ([] ++ [witFD_B]) }] ∧
    extractCitations ([] ++ ({ fact := some (some witFD_NoId) } : ToolResult) :: [])
      = extractCitations ([] ++ []) :=
  ⟨(malformed_fact_skip witFD_NoId (by decide)).1 ([], []),
   by
     have := (malformed_fact_skip witFD_NoId (by decide)).2.1 [] [] [] [witFD_B]
     simpa using this,
   (malformed_fact_skip witFD_NoId (by decide)).2.2 [] []⟩

/-- C4.  Citation deduplication: whenever at least one accepted (well-formed)
fact with id `fid` occurs among the tool results, the extracted list carries
exactly one citation with that id; that citation is the first accepted
occurrence in call order (so its `text`/`source_section` come from the first
occurrence); and the extracted ids are exactly the first occurrences of the
accepted candidates' ids, in order. -/
theorem citation_dedup (rs : List ToolResult) (fid : String)
    (h : fid ∈ (citationCandidates rs).filterMap (fun c => c.fact_id)) :
    (extractCitations rs).countP (fun c => c.fact_id == some fid) = 1 ∧
    (extractCitations rs).find? (fun c => c.fact_id == some fid)
      = (citationCandidates rs).find? (fun c => c.fact_id == some fid) ∧
    (extractCitations rs).filterMap (fun c => c.fact_id)
      = firstIds ((citationCandidates rs).filterMap (fun c => c.fact_id)) [] := by
  have hids : (extractCitations rs).filterMap (fun c => c.fact_id)
      = firstIds ((citationCandidates rs).filterMap (fun c => c.fact_id)) [] := by
    rw [extractCitations_eq_flat]
    have hinv := foldl_citeStep_inv (flatFacts rs) ([], []) (by simp)
    have hseen := foldl_citeStep_seen (flatFacts rs) ([], [])
    rw [← hinv, hseen]
    simp [citationCandidates]
  refine ⟨?_, ?_, hids⟩
  · rw [countP_fact_id, hids]
    refine List.count_eq_one_of_mem (nodup_firstIds _ _) ?_
    rw [mem_firstIds]
    exact ⟨h, by simp⟩
  · rw [extractCitations_eq_flat]
    rw [foldl_citeStep_find? (flatFacts rs) [] [] fid (by simp) (by simp)]
    rfl

/-- C4 witness: three accepted entries, two sharing id `"rpp.a"` across a
`fact` result and a later `facts` result — one citation per id, the shared
id resolved to its first occurrence, ids in first-occurrence order. -/
theorem citation_dedup_witness :
    (extractCitations [{ fact := some (some witFD_A) },
        { facts := some [witFD_A2, witFD_B] }]).countP
        (fun c => c.fact_id == some "rpp.a") = 1 ∧
    (extractCitations [{ fact := some (some witFD_A) },
        { facts := some [witFD_A2, witFD_B] }]).find?
        (fun c => c.fact_id == some "rpp.a")
      = (citationCandidates [{ fact := some (some witFD_A) },
          { facts := some [witFD_A2, witFD_B] }]).find?
          (fun c => c.fact_id == some "rpp.a") ∧
    (extractCitations [{ fact := some (some witFD_A) },
        { facts := some [witFD_A2, witFD_B] }]).filterMap (fun c => c.fact_id)
      = firstIds ((citationCandidates [{ fact := some (some witFD_A) },
          { facts := some [witFD_A2, witFD_B] }]).filterMap (fun c => c.fact_id)) [] :=
  citation_dedup
    [{ fact := some (some witFD_A) }, { facts := some [witFD_A2, witFD_B] }]
    "rpp.a" (by decide)

/-- C1.  Citation soundness: on every successful `ask` run, the returned
citations are exactly the extraction of the run's accumulated tool results,
and every citation is built, field for field (`fact_id`/`url`/`text`, and
`source_section` too), from a fact dictionary that appeared under the `fact`
or `facts` key of one of those results — each of which is itself an output
of the tool dispatcher.  No citation is fabricated from data not returned by
a tool. -/
theorem citation_soundness (g : GraphStore) (f : FactsStore) (engine : Engine)
    (question : String) (m : Int) (resp : ConversationResponse)
    (hok : (askRun g f engine question m).result = .ok resp) :
    resp.citations = extractCitations (askRun g f engine question m).tool_results ∧
    ∀ c ∈ resp.citations,
      ∃ r ∈ (askRun g f engine question m).tool_results,
        (∃ tool_name tool_input, r = execute_tool_call g f tool_name tool_input) ∧
        ∃ fd ∈ resultFacts r,
          fd.id = c.fact_id ∧ fd.source_url = some c.url ∧ fd.text = some c.text ∧
            fd.source_section = c.source_section := by
  by_cases h1 : question = "" ∨ strTrim question = ""
  · simp [askRun, h1] at hok
  by_cases h2 : 10000 < question.length
  · simp [askRun, h1, h2] at hok
  by_cases h3 : m < 1 ∨ 20 < m
  · simp [askRun, h1, h2, h3] at hok
  have heq : askRun g f engine question m
      = askLoop g f engine m m.toNat 0 [⟨"user", .text (strTrim question)⟩] [] [] := by
    simp [askRun, h1, h2, h3]
  rw [heq] at hok ⊢
  · obtain ⟨hcit, _⟩ := askLoop_ok_citations g f engine m m.toNat 0 _ [] [] resp hok
    refine ⟨hcit, ?_⟩
    intro c hc
    rw [hcit] at hc
    obtain ⟨r, hr, fd, hfd, hmk⟩ := extractCitations_sound _ c hc
    rcases askLoop_results_from_dispatch g f engine m m.toNat 0 _ [] [] r hr with h0 | hout
    · cases h0
    · obtain ⟨hid, hurl, htxt, hsec⟩ := mkCitation_fields fd c hmk
      exact ⟨r, hr, hout, fd, hfd, hid, hurl, htxt, hsec⟩

/-- C1 witness: a run whose single tool call returns the two facts sharing
id `"rpp.a.one"` (across the two loaded registries) succeeds with exactly
one citation, sourced field-for-field from the dispatcher's output. -/
theorem citation_soundness_witness :
    ({ answer := "answer",
       citations := [{ fact_id := some "rpp.a.one", url := "https://ex/a",
                       text := "Fact A" }],
       tool_calls_made := ["query_facts"] } : ConversationResponse).citations
      = extractCitations
          ( askRun witGraph ( FactsService.toStore witService) witEngineOneTool
              "What?" 5).tool_results ∧
    ∀ c ∈ ({ answer := "answer",
             citations := [{ fact_id := some "rpp.a.one", url := "https://ex/a",
                             text := "Fact A" }],
             tool_calls_made := ["query_facts"] } : ConversationResponse).citations,
      ∃ r ∈ ( askRun witGraph ( FactsService.toStore witService) witEngineOneTool
          "What?" 5).tool_results,
        (∃ tool_name tool_input,
          r = execute_tool_call witGraph ( FactsService.toStore witService)
                tool_name tool_input) ∧
        ∃ fd ∈ resultFacts r,
          fd.id = c.fact_id ∧ fd.source_url = some c.url ∧ fd.text = some c.text ∧
            fd.source_section = c.source_section :=
  citation_soundness witGraph ( FactsService.toStore witService) witEngineOneTool
    "What?" 5
    { answer := "answer",
      citations := [{ fact_id := some "rpp.a.one", url := "https://ex/a",
                      text := "Fact A" }],
      tool_calls_made := ["query_facts"] }
    (by decide)

end BostonGov
